import Mathlib

/-!
# gif-tool: crop box controller, coordinate mapping and worker protocol

A shallow embedding of `src/main.js` (class `GifTool`) and `src/worker.js`
(class `FFmpegWorker`).

Modelling conventions:

* JavaScript numbers are modelled by exact rationals (`ℚ`); `Math.min`,
  `Math.max` are `min`, `max`, and `Math.round x` is `⌊x + 1/2⌋`.
* The DOM is reduced to the numbers the code reads from it: the bounding
  rectangle and client size of the crop overlay, and the bounding rectangle and
  intrinsic size of the video element.
* A method of `GifTool` becomes a function from the instance fields it reads
  to the instance fields it writes.
-/

/-- The function `Math.round`: the nearest integer, a tie going up. -/
def jsRound (q : ℚ) : ℤ := ⌊q + 1 / 2⌋

namespace FFmpegWorker

/-! ## Worker protocol (`src/worker.js`) -/

/-- A message posted by the worker with `self.postMessage`: the payloads of
`postProgress`, `postComplete` and `postError`. The blob is modelled by
the bytes read back from the engine. -/
inductive Message
  | progress (progress : ℚ) (message : String)
  | complete (gifBlob : List Nat)
  | error (error : String)
  deriving DecidableEq

/-- An event the engine emits to the handlers registered in `initialize()`:
a `log` event with its message, or a `progress` event with its fraction. -/
inductive Signal
  | log (message : String)
  | progress (progress : ℚ)
  deriving DecidableEq

/-- The outcome of one awaited call: the events the engine emits while the
call is pending, and `error.message` if the call throws (`none` if it
returns). -/
structure Call where
  signals : List Signal
  error : Option String
  deriving DecidableEq

/-- The outcomes of the awaited calls of one `generate` request, in the order
the code makes them; `gifData` is what `readFile` returns. -/
structure Engine where
  load : Call
  fetchFile : Call
  writeFile : Call
  exec : Call
  readFile : Call
  gifData : List Nat
  deleteInput : Call
  deleteOutput : Call

/-- The characters matched by `\s` in a JavaScript regular expression. -/
def isSpace (c : Char) : Bool :=
  let n := c.toNat
  (0x09 ≤ n && n ≤ 0x0D) || n = 0x20 || n = 0xA0 || n = 0x1680 ||
    (0x2000 ≤ n && n ≤ 0x200A) || n = 0x2028 || n = 0x2029 || n = 0x202F ||
    n = 0x205F || n = 0x3000 || n = 0xFEFF

/-- The function `parseInt` on a string of decimal digits. -/
def parseDigits (ds : List Char) : Nat :=
  ds.foldl (fun n c => 10 * n + (c.toNat - 48)) 0

/-- A match of `frame=\s*(\d+)` starting at the head of `cs`: the number
captured by the group. -/
def matchFrameHere (cs : List Char) : Option Nat :=
  if "frame=".toList.isPrefixOf cs then
    let digits := (((cs.drop 6).dropWhile isSpace).takeWhile Char.isDigit)
    if digits.isEmpty then none else some (parseDigits digits)
  else none

/-- The leftmost match of `frame=\s*(\d+)` in `cs`, as `String.match` finds
it. -/
def matchFrame : List Char → Option Nat
  | [] => none
  | c :: cs =>
    match matchFrameHere (c :: cs) with
    | some n => some n
    | none => matchFrame cs

/-- The method `parseLogForProgress(message)`: the messages it posts. A
message that matches the regular expression contains `frame=`, so the outer
`includes` test is implied by the match. -/
def parseLogForProgress (message : String) : List Message :=
  match matchFrame message.toList with
  | some frame =>
    let expectedFrames : ℚ := 40
    let progress := min ((frame : ℚ) / expectedFrames * 100) 95
    [.progress (30 + progress * (3 / 5))
      ("Processing frame " ++ toString frame ++ "...")]
  | none => []

/-- The handler of the engine's `progress` event registered in
`initialize()`. -/
def onProgress (progress : ℚ) : Message :=
  let percentage := jsRound (progress * 100)
  .progress (30 + (percentage : ℚ) * (3 / 5))
    ("Processing... " ++ toString percentage ++ "%")

/-- The messages posted by the handlers for one engine event. -/
def onSignal : Signal → List Message
  | .log message => parseLogForProgress message
  | .progress progress => [onProgress progress]

/-- The messages posted by the handlers for a list of engine events. -/
def onSignals (sigs : List Signal) : List Message :=
  sigs.flatMap onSignal

/-- What `initialize()` did: the messages posted, the message of the error it
threw (if any) and the value of `this.isLoaded` afterwards. -/
structure InitResult where
  posted : List Message
  thrown : Option String
  isLoaded : Bool

/-- The method `initialize()` of the worker (the bare name is reserved in
Lean). -/
def initializeFFmpeg (isLoaded : Bool) (eng : Engine) : InitResult :=
  if isLoaded then { posted := [], thrown := none, isLoaded := true }
  else
    let before : List Message :=
      [.progress 10 "Loading FFmpeg...", .progress 15 "Loading FFmpeg core..."]
        ++ onSignals eng.load.signals
    match eng.load.error with
    | some e =>
      { posted := before ++ [.error ("Failed to load FFmpeg: " ++ e)]
        thrown := some e, isLoaded := false }
    | none =>
      { posted := before ++ [.progress 25 "FFmpeg ready"]
        thrown := none, isLoaded := true }

/-- One awaited call inside the `try` block of `generateGif`: the handlers
post for the events emitted meanwhile; if the call throws, control passes to
the `catch` block, which posts `error.message`; otherwise the rest of the
`try` block, `rest`, runs. -/
def await (c : Call) (rest : List Message) : List Message :=
  onSignals c.signals ++
    match c.error with
    | some e => [.error e]
    | none => rest

/-- The method `generateGif(data)` of the worker: the messages posted for one
`generate` request, in order. -/
def generateGif (isLoaded : Bool) (eng : Engine) : List Message :=
  let init := initializeFFmpeg isLoaded eng
  init.posted ++
    match init.thrown with
    | some e => [.error e]
    | none =>
      .progress 25 "Preparing video data..." ::
        await eng.fetchFile
          (await eng.writeFile
            (.progress 30 "Starting GIF generation..." ::
              await eng.exec
                (.progress 95 "Finalizing GIF..." ::
                  await eng.readFile
                    (await eng.deleteInput
                      (await eng.deleteOutput
                        [.progress 100 "Complete!",
                          .complete eng.gifData])))))

/-- An engine on which every call returns, emitting the given events during
`exec`. -/
def okEngine (sigs : List Signal) (data : List Nat) : Engine :=
  { load := ⟨[], none⟩, fetchFile := ⟨[], none⟩, writeFile := ⟨[], none⟩,
    exec := ⟨sigs, none⟩, readFile := ⟨[], none⟩, gifData := data,
    deleteInput := ⟨[], none⟩, deleteOutput := ⟨[], none⟩ }

/-- An engine whose `load()` throws an error with message `e`. -/
def failingLoad (e : String) : Engine :=
  { okEngine [] [] with load := ⟨[], some e⟩ }

/-! ## Specification vocabulary for the protocol -/

/-- A `progress` message. -/
def Message.isProgress : Message → Bool
  | .progress _ _ => true
  | _ => false

/-- A terminal message: `complete` or `error`. -/
def Message.isTerminal : Message → Bool
  | .progress _ _ => false
  | _ => true

/-- The number of terminal messages in a sequence. -/
def terminals (t : List Message) : Nat := t.countP Message.isTerminal

/-- A well-formed message sequence: progress messages followed by exactly one
terminal message, which is last. -/
def WellFormed (t : List Message) : Prop :=
  ∃ pre last, t = pre ++ [last] ∧ (∀ m ∈ pre, m.isProgress = true) ∧
    last.isTerminal = true

/-- In the sequence `t`, a `complete` message can only come last, right after
the progress message `100, "Complete!"`, with progress messages before. -/
def CompleteAfter100 (t : List Message) : Prop :=
  ∀ blob, Message.complete blob ∈ t →
    ∃ pre, t = pre ++ [.progress 100 "Complete!", .complete blob] ∧
      ∀ m ∈ pre, m.isProgress = true

end FFmpegWorker

namespace GifTool

/-! ## Data model -/

/-- The field `this.cropBox`: a square in overlay pixels. -/
structure CropBox where
  x : ℚ
  y : ℚ
  size : ℚ
  deriving DecidableEq

/-- What the code reads from `this.elements.cropOverlay`:
`getBoundingClientRect()` (`left`, `top`, `width`, `height`) and
`clientWidth`, `clientHeight`. -/
structure Overlay where
  left : ℚ
  top : ℚ
  width : ℚ
  height : ℚ
  clientWidth : ℚ
  clientHeight : ℚ

/-- The field `this.dragStart`. -/
structure Point where
  x : ℚ
  y : ℚ
  deriving DecidableEq

/-- The interaction fields of a `GifTool` instance. -/
structure Crop where
  cropBox : CropBox
  isDragging : Bool
  isResizing : Bool
  dragStart : Point
  resizeCorner : Option String

/-- A mouse event: pointer position in client coordinates and whether the
event target carries the class `crop-handle`. -/
structure MouseEvent where
  clientX : ℚ
  clientY : ℚ
  onHandle : Bool

/-- A keyboard event: `e.key` and `e.shiftKey`. -/
structure KeyEvent where
  key : String
  shiftKey : Bool

/-! ## Crop box controller -/

/-- The constant `minSize` of `handleResize`. -/
def minSize : ℚ := 50

/-- The first half of `handleResize(x, y)` (up to and including the clamp of
`newSize`): the candidate rectangle `(newX, newY, newSize)`. `newX` and `newY`
are computed in the `switch`, from the size before it is clamped. -/
def resizeCandidate (o : Overlay) (box : CropBox) (corner : Option String)
    (x y : ℚ) : CropBox :=
  let maxSize := min o.clientWidth o.clientHeight
  let raw : CropBox :=
    match corner with
    | some "se" =>
      { x := box.x, y := box.y, size := min (x - box.x) (y - box.y) }
    | some "sw" =>
      let newSize := min (box.x + box.size - x) (y - box.y)
      { x := box.x + box.size - newSize, y := box.y, size := newSize }
    | some "ne" =>
      let newSize := min (x - box.x) (box.y + box.size - y)
      { x := box.x, y := box.y + box.size - newSize, size := newSize }
    | some "nw" =>
      let newSize := min (box.x + box.size - x) (box.y + box.size - y)
      { x := box.x + box.size - newSize, y := box.y + box.size - newSize,
        size := newSize }
    | _ => box
  { raw with size := max minSize (min maxSize raw.size) }

/-- The method `handleResize(x, y)`: each coordinate of the candidate is
stored only if that axis of the candidate lies inside the overlay; the
candidate size is stored in every case. -/
def handleResize (o : Overlay) (box : CropBox) (corner : Option String)
    (x y : ℚ) : CropBox :=
  let c := resizeCandidate o box corner x y
  let x1 := if 0 ≤ c.x ∧ c.x + c.size ≤ o.clientWidth then c.x else box.x
  let y1 := if 0 ≤ c.y ∧ c.y + c.size ≤ o.clientHeight then c.y else box.y
  { x := x1, y := y1, size := c.size }

/-- The method `handleCropMouseDown(e)`. -/
def handleCropMouseDown (o : Overlay) (s : Crop) (e : MouseEvent) : Crop :=
  if e.onHandle then s
  else
    { s with
      isDragging := true
      dragStart :=
        { x := e.clientX - o.left - s.cropBox.x
          y := e.clientY - o.top - s.cropBox.y } }

/-- The method `handleResizeStart(e)`; `corner` is the `data-corner`
attribute of the handle. -/
def handleResizeStart (o : Overlay) (s : Crop) (e : MouseEvent)
    (corner : Option String) : Crop :=
  { s with
    isResizing := true
    resizeCorner := corner
    dragStart := { x := e.clientX - o.left, y := e.clientY - o.top } }

/-- The method `handleCropMouseMove(e)`. -/
def handleCropMouseMove (o : Overlay) (s : Crop) (e : MouseEvent) : Crop :=
  if !s.isDragging && !s.isResizing then s
  else
    let x := e.clientX - o.left
    let y := e.clientY - o.top
    if s.isDragging then
      let x1 := max 0 (min (x - s.dragStart.x) (o.width - s.cropBox.size))
      let y1 := max 0 (min (y - s.dragStart.y) (o.height - s.cropBox.size))
      { s with cropBox := { x := x1, y := y1, size := s.cropBox.size } }
    else if s.isResizing then
      { s with cropBox := handleResize o s.cropBox s.resizeCorner x y }
    else s

/-- The method `handleCropMouseUp()`. -/
def handleCropMouseUp (s : Crop) : Crop :=
  { s with isDragging := false, isResizing := false, resizeCorner := none }

/-- The constant `step` of `handleCropKeyDown`: `e.shiftKey ? 10 : 1`. -/
def keyStep (e : KeyEvent) : ℚ := if e.shiftKey then 10 else 1

/-- The method `handleCropKeyDown(e)`: the crop box after the event, and
whether `e.preventDefault()` was called. -/
def handleCropKeyDown (o : Overlay) (box : CropBox) (e : KeyEvent) :
    CropBox × Bool :=
  let step := keyStep e
  match e.key with
  | "ArrowLeft" => ({ box with x := max 0 (box.x - step) }, true)
  | "ArrowRight" =>
    ({ box with x := min (o.clientWidth - box.size) (box.x + step) }, true)
  | "ArrowUp" => ({ box with y := max 0 (box.y - step) }, true)
  | "ArrowDown" =>
    ({ box with y := min (o.clientHeight - box.size) (box.y + step) }, true)
  | _ => (box, false)

/-! ## Coordinate mapping -/

/-- What the code reads from `this.elements.videoPreview`: the intrinsic size
(`videoWidth`, `videoHeight`) and the size of `getBoundingClientRect()`. -/
structure Video where
  videoWidth : ℚ
  videoHeight : ℚ
  rectWidth : ℚ
  rectHeight : ℚ

/-- The locals `displayWidth`, `displayHeight`, `offsetX`, `offsetY` of the
contain-fit code. -/
structure DisplayRect where
  displayWidth : ℚ
  displayHeight : ℚ
  offsetX : ℚ
  offsetY : ℚ
  deriving DecidableEq

/-- The contain-fit block of `initializeCropBox()`: both offsets are computed
after the branch, as half of the free space. -/
def initDisplayRect (v : Video) : DisplayRect :=
  let videoAspect := v.videoWidth / v.videoHeight
  let containerAspect := v.rectWidth / v.rectHeight
  let display : ℚ × ℚ :=
    if videoAspect > containerAspect then
      (v.rectWidth, v.rectWidth / videoAspect)
    else
      (v.rectHeight * videoAspect, v.rectHeight)
  let offsetX := (v.rectWidth - display.1) / 2
  let offsetY := (v.rectHeight - display.2) / 2
  { displayWidth := display.1, displayHeight := display.2,
    offsetX := offsetX, offsetY := offsetY }

/-- The method `initializeCropBox()`: a centred square of 40% of the smaller
display dimension. -/
def initializeCropBox (v : Video) : CropBox :=
  let r := initDisplayRect v
  let size := min r.displayWidth r.displayHeight * (2 / 5)
  { size := size
    x := r.offsetX + (r.displayWidth - size) / 2
    y := r.offsetY + (r.displayHeight - size) / 2 }

/-- The contain-fit block of `calculateCropParameters()`: the offset of the
filled axis is the literal `0`, the other is set inside the branch. -/
def cropDisplayRect (v : Video) : DisplayRect :=
  let videoAspect := v.videoWidth / v.videoHeight
  let containerAspect := v.rectWidth / v.rectHeight
  if videoAspect > containerAspect then
    let displayWidth := v.rectWidth
    let displayHeight := v.rectWidth / videoAspect
    { displayWidth := displayWidth, displayHeight := displayHeight,
      offsetX := 0, offsetY := (v.rectHeight - displayHeight) / 2 }
  else
    let displayHeight := v.rectHeight
    let displayWidth := v.rectHeight * videoAspect
    { displayWidth := displayWidth, displayHeight := displayHeight,
      offsetX := (v.rectWidth - displayWidth) / 2, offsetY := 0 }

/-- The object returned by `calculateCropParameters()`. -/
structure SourceCrop where
  x : ℤ
  y : ℤ
  size : ℤ
  deriving DecidableEq

/-- The local `scaleX` of `calculateCropParameters()`. -/
def scaleX (v : Video) : ℚ := v.videoWidth / (cropDisplayRect v).displayWidth

/-- The local `scaleY` of `calculateCropParameters()`. -/
def scaleY (v : Video) : ℚ := v.videoHeight / (cropDisplayRect v).displayHeight

/-- The method `calculateCropParameters()`. -/
def calculateCropParameters (v : Video) (box : CropBox) : SourceCrop :=
  let r := cropDisplayRect v
  let scaleX := scaleX v
  let scaleY := scaleY v
  let cropX := (box.x - r.offsetX) * scaleX
  let cropY := (box.y - r.offsetY) * scaleY
  let cropSize := box.size * min scaleX scaleY
  { x := max 0 (jsRound cropX), y := max 0 (jsRound cropY),
    size := jsRound cropSize }

/-! ## Worker lifecycle (main thread) -/

/-- The fields of a `GifTool` instance that the job lifecycle touches, and the
`Worker` objects it has constructed. Workers are numbered in order of
construction; `live` lists those on which `terminate()` was never called. -/
structure Session where
  video : Bool
  worker : Option Nat
  live : List Nat
  created : Nat
  gifBlob : Bool
  generateBtnShown : Bool
  cancelBtnShown : Bool
  deriving DecidableEq

/-- The method `generateGif()` of `GifTool`: returns at once without a video;
otherwise constructs a new `Worker` and stores it in `this.worker`. The
constructor is taken to succeed, so the `catch` block is not entered. -/
def generateGif (s : Session) : Session :=
  if !s.video then s
  else
    { s with
      generateBtnShown := false
      cancelBtnShown := true
      worker := some s.created
      live := s.created :: s.live
      created := s.created + 1 }

/-- The method `cancelGeneration()`. -/
def cancelGeneration (s : Session) : Session :=
  let s1 :=
    match s.worker with
    | some w => { s with live := s.live.erase w, worker := none }
    | none => s
  { s1 with generateBtnShown := true, cancelBtnShown := false }

/-- The method `reset()`. -/
def reset (s : Session) : Session :=
  let s1 :=
    match s.worker with
    | some w => { s with live := s.live.erase w, worker := none }
    | none => s
  { s1 with video := false, gifBlob := false }

/-- The method `handleGenerationComplete(gifBlob)`. -/
def handleGenerationComplete (s : Session) : Session :=
  { s with generateBtnShown := true, cancelBtnShown := false, gifBlob := true }

/-- The method `handleGenerationError(error)`. -/
def handleGenerationError (s : Session) : Session :=
  { s with generateBtnShown := true, cancelBtnShown := false }

/-- A call made by the handler `worker.onmessage` of `generateGif()`. -/
inductive UiCall
  | updateProgress (progress : ℚ) (message : String)
  | handleGenerationComplete (gifBlob : List Nat)
  | handleGenerationError (error : String)
  deriving DecidableEq

/-- The handler `this.worker.onmessage`: the call it makes for a message. -/
def onmessage : FFmpegWorker.Message → UiCall
  | .progress progress message => .updateProgress progress message
  | .complete gifBlob => .handleGenerationComplete gifBlob
  | .error error => .handleGenerationError error

/-- The events that reach the job lifecycle: clicks on the three buttons, and
the terminal messages of the current worker. -/
inductive Event
  | generateClick
  | cancelClick
  | resetClick
  | workerComplete
  | workerError
  deriving DecidableEq

/-- The listener wired to each event in `setupEventListeners()` and in
`worker.onmessage`. -/
def step (s : Session) : Event → Session
  | .generateClick => generateGif s
  | .cancelClick => cancelGeneration s
  | .resetClick => reset s
  | .workerComplete => handleGenerationComplete s
  | .workerError => handleGenerationError s

/-- The session after a sequence of events. -/
def run (s : Session) (es : List Event) : Session := es.foldl step s

/-- A session right after a video file was accepted by `processFile`: no
worker yet, the generate button shown. -/
def loadedSession : Session :=
  { video := true, worker := none, live := [], created := 0, gifBlob := false,
    generateBtnShown := true, cancelBtnShown := false }

/-! ## Specification vocabulary -/

/-- The crop box invariants of the data model, for a container `w × h`. -/
def Valid (w h : ℚ) (box : CropBox) : Prop :=
  0 ≤ box.x ∧ 0 ≤ box.y ∧ box.x + box.size ≤ w ∧ box.y + box.size ≤ h ∧
    50 ≤ box.size ∧ box.size ≤ min w h

instance (w h : ℚ) (box : CropBox) : Decidable (Valid w h box) := by
  unfold Valid; infer_instance

/-- The box lies inside the container `w × h`. -/
def Inside (w h : ℚ) (box : CropBox) : Prop :=
  0 ≤ box.x ∧ 0 ≤ box.y ∧ box.x + box.size ≤ w ∧ box.y + box.size ≤ h

instance (w h : ℚ) (box : CropBox) : Decidable (Inside w h box) := by
  unfold Inside; infer_instance

/-- The contain-fit property of a display rect `r` for the video `v`: `r` lies
inside the container, fills one container dimension exactly, and has the
aspect ratio of the video. -/
def ContainFit (v : Video) (r : DisplayRect) : Prop :=
  0 ≤ r.offsetX ∧ 0 ≤ r.offsetY ∧
    r.offsetX + r.displayWidth ≤ v.rectWidth ∧
    r.offsetY + r.displayHeight ≤ v.rectHeight ∧
    (r.displayWidth = v.rectWidth ∨ r.displayHeight = v.rectHeight) ∧
    r.displayWidth / r.displayHeight = v.videoWidth / v.videoHeight

instance (v : Video) (r : DisplayRect) : Decidable (ContainFit v r) := by
  unfold ContainFit; infer_instance

/-- The value `v` clamped into the interval `[lo, hi]`, as the specification
words it: below the interval gives `lo`, above it gives `hi`. -/
def clampInto (lo hi v : ℚ) : ℚ :=
  if v < lo then lo else if hi < v then hi else v

/-- The interaction fields at rest, as the constructor and
`handleCropMouseUp` leave them, around the crop box `box`. -/
def idleCrop (box : CropBox) : Crop :=
  { cropBox := box, isDragging := false, isResizing := false,
    dragStart := ⟨0, 0⟩, resizeCorner := none }

/-- A square overlay of side `n` placed at the client origin. -/
def squareOverlay (n : ℚ) : Overlay :=
  { left := 0, top := 0, width := n, height := n, clientWidth := n,
    clientHeight := n }

/-- The region `box` lies inside the displayed media rect of
`calculateCropParameters()`. -/
def InsideDisplay (v : Video) (box : CropBox) : Prop :=
  (cropDisplayRect v).offsetX ≤ box.x ∧ (cropDisplayRect v).offsetY ≤ box.y ∧
    box.x + box.size
      ≤ (cropDisplayRect v).offsetX + (cropDisplayRect v).displayWidth ∧
    box.y + box.size
      ≤ (cropDisplayRect v).offsetY + (cropDisplayRect v).displayHeight

instance (v : Video) (box : CropBox) : Decidable (InsideDisplay v box) := by
  unfold InsideDisplay; infer_instance

end GifTool

/-! # Theorems -/

namespace GifTool

/-! ## Resize -/

section Resize

/-- The clamped candidate size is at least `minSize` and, in a container at
least `minSize` wide and high, at most the smaller container dimension. -/
theorem resizeCandidate_size_bounds (o : Overlay) (box : CropBox)
    (corner : Option String) (x y : ℚ) (hw : 50 ≤ o.clientWidth)
    (hh : 50 ≤ o.clientHeight) :
    50 ≤ (resizeCandidate o box corner x y).size ∧
      (resizeCandidate o box corner x y).size ≤
        min o.clientWidth o.clientHeight := by
  have hm : (50 : ℚ) ≤ min o.clientWidth o.clientHeight := le_min hw hh
  simp only [resizeCandidate, minSize]
  exact ⟨le_max_left _ _, max_le hm (min_le_left _ _)⟩

/-- The size stored by `handleResize` is the clamped candidate size. -/
theorem handleResize_size (o : Overlay) (box : CropBox)
    (corner : Option String) (x y : ℚ) :
    (handleResize o box corner x y).size
      = (resizeCandidate o box corner x y).size := rfl

/-- C1 (code evaluated at the failing input): in a 200 × 200 container the
valid box (100, 100, 50), resized from the `se` corner with the pointer at
(1000, 1000), becomes (100, 100, 200): the size is stored although the
position guards failed, so `x + size = 300` exceeds the container width and
the invariants are lost after one resize step. The same box results from
the events themselves: pointer-down on the `se` handle, pointer move to
(1000, 1000). -/
theorem handleResize_breaks_invariants :
    Valid 200 200 ⟨100, 100, 50⟩ ∧
      handleResize (squareOverlay 200) ⟨100, 100, 50⟩ (some "se") 1000 1000
        = ⟨100, 100, 200⟩ ∧
      ¬ Valid 200 200
        (handleResize (squareOverlay 200) ⟨100, 100, 50⟩ (some "se") 1000 1000) ∧
      (handleCropMouseMove (squareOverlay 200)
        (handleResizeStart (squareOverlay 200) (idleCrop ⟨100, 100, 50⟩)
          ⟨150, 150, true⟩ (some "se"))
        ⟨1000, 1000, false⟩).cropBox = ⟨100, 100, 200⟩ := by
  decide!

/-- C3 (counterexample): in a 200 × 200 container the valid box
(100, 100, 50), resized from the `ne` corner with the pointer at (220, 30),
has the candidate rectangle (100, 30, 120), which leaves the container on the
right (`100 + 120 > 200`); the step is not a no-op: `y` and `size` are
overwritten and the box becomes (100, 30, 120). -/
theorem handleResize_invalid_candidate_not_noop :
    Valid 200 200 ⟨100, 100, 50⟩ ∧
      resizeCandidate (squareOverlay 200) ⟨100, 100, 50⟩ (some "ne") 220 30
        = ⟨100, 30, 120⟩ ∧
      ¬ Inside 200 200
        (resizeCandidate (squareOverlay 200) ⟨100, 100, 50⟩ (some "ne") 220 30) ∧
      handleResize (squareOverlay 200) ⟨100, 100, 50⟩ (some "ne") 220 30
        = ⟨100, 30, 120⟩ ∧
      handleResize (squareOverlay 200) ⟨100, 100, 50⟩ (some "ne") 220 30
        ≠ ⟨100, 100, 50⟩ := by
  decide!

/-- C3 (amended): the candidate rectangle of a resize step is rejected axis
by axis. If the candidate violates `0 ≤ x` or `x + size ≤ containerWidth`,
then `x` is left exactly as it was; if it violates `0 ≤ y` or
`y + size ≤ containerHeight`, then `y` is left exactly as it was; an axis
whose own two bounds hold takes the candidate coordinate. -/
theorem handleResize_rejects_per_axis (o : Overlay) (box : CropBox)
    (corner : Option String) (x y : ℚ) :
    (¬ (0 ≤ (resizeCandidate o box corner x y).x ∧
          (resizeCandidate o box corner x y).x
            + (resizeCandidate o box corner x y).size ≤ o.clientWidth) →
        (handleResize o box corner x y).x = box.x) ∧
    (¬ (0 ≤ (resizeCandidate o box corner x y).y ∧
          (resizeCandidate o box corner x y).y
            + (resizeCandidate o box corner x y).size ≤ o.clientHeight) →
        (handleResize o box corner x y).y = box.y) ∧
    ((0 ≤ (resizeCandidate o box corner x y).x ∧
          (resizeCandidate o box corner x y).x
            + (resizeCandidate o box corner x y).size ≤ o.clientWidth) →
        (handleResize o box corner x y).x
          = (resizeCandidate o box corner x y).x) ∧
    ((0 ≤ (resizeCandidate o box corner x y).y ∧
          (resizeCandidate o box corner x y).y
            + (resizeCandidate o box corner x y).size ≤ o.clientHeight) →
        (handleResize o box corner x y).y
          = (resizeCandidate o box corner x y).y) := by
  refine ⟨fun h => ?_, fun h => ?_, fun h => ?_, fun h => ?_⟩ <;>
    simp only [handleResize] <;> first | rw [if_neg h] | rw [if_pos h]

/-- The amended C3 at the `ne` input above: the x axis of the candidate is out
of bounds and `x` stays 100, the y axis is in bounds and `y` becomes 30. -/
theorem handleResize_rejects_per_axis_witness :
    ¬ (0 ≤ (resizeCandidate (squareOverlay 200) ⟨100, 100, 50⟩ (some "ne") 220 30).x ∧
        (resizeCandidate (squareOverlay 200) ⟨100, 100, 50⟩ (some "ne") 220 30).x
          + (resizeCandidate (squareOverlay 200) ⟨100, 100, 50⟩ (some "ne") 220 30).size
          ≤ (squareOverlay 200).clientWidth) ∧
      (handleResize (squareOverlay 200) ⟨100, 100, 50⟩ (some "ne") 220 30).x = 100 ∧
      (handleResize (squareOverlay 200) ⟨100, 100, 50⟩ (some "ne") 220 30).y
        = (resizeCandidate (squareOverlay 200) ⟨100, 100, 50⟩ (some "ne") 220 30).y :=
  ⟨by decide!,
    (handleResize_rejects_per_axis (squareOverlay 200) ⟨100, 100, 50⟩
      (some "ne") 220 30).1 (by decide!),
    (handleResize_rejects_per_axis (squareOverlay 200) ⟨100, 100, 50⟩
      (some "ne") 220 30).2.2.2 (by decide!)⟩

/-- C4 (code evaluated at the failing input): in a 200 × 200 container the
valid box (100, 100, 50), resized from the `sw` corner with the pointer at
(120, 130), becomes (120, 100, 50): `newX` was computed from the raw size 30,
the size was clamped up to 50 afterwards, and the anchor corner `ne`,
at `x + size = 150` before the step, is at 170 after it. The same box
results from the events themselves: pointer-down on the `sw` handle at
(100, 150), pointer move to (120, 130). -/
theorem handleResize_moves_anchor :
    Valid 200 200 ⟨100, 100, 50⟩ ∧
      handleResize (squareOverlay 200) ⟨100, 100, 50⟩ (some "sw") 120 130
        = ⟨120, 100, 50⟩ ∧
      (handleResize (squareOverlay 200) ⟨100, 100, 50⟩ (some "sw") 120 130).x
        + (handleResize (squareOverlay 200) ⟨100, 100, 50⟩ (some "sw") 120 130).size
        ≠ (100 : ℚ) + 50 ∧
      (handleCropMouseMove (squareOverlay 200)
        (handleResizeStart (squareOverlay 200) (idleCrop ⟨100, 100, 50⟩)
          ⟨100, 150, true⟩ (some "sw"))
        ⟨120, 130, false⟩).cropBox = ⟨120, 100, 50⟩ := by
  decide!

/-- The `se` corner keeps its anchor: a resize from `se` never changes
`x` or `y`. -/
theorem handleResize_se_keeps_anchor (o : Overlay) (box : CropBox) (x y : ℚ) :
    (handleResize o box (some "se") x y).x = box.x ∧
      (handleResize o box (some "se") x y).y = box.y := by
  constructor <;> simp only [handleResize, resizeCandidate] <;> split_ifs <;> rfl

end Resize

/-! ## Drag and keyboard -/

section Move

/-- The nested `Math.max(0, Math.min(v, hi))` of the drag code is the clamp
into `[0, hi]` whenever that interval is not empty. -/
theorem max_min_eq_clampInto (v hi : ℚ) (h : 0 ≤ hi) :
    max 0 (min v hi) = clampInto 0 hi v := by
  simp only [clampInto, max_def, min_def]
  split_ifs <;> linarith

/-- A clamped value lies in the interval it was clamped into. -/
theorem clampInto_mem (lo hi v : ℚ) (h : lo ≤ hi) :
    lo ≤ clampInto lo hi v ∧ clampInto lo hi v ≤ hi := by
  simp only [clampInto]
  split_ifs <;> constructor <;> linarith

/-- C2: while dragging, a pointer move on a box no larger than the container
sets `x` to `pointerX - grabOffsetX` clamped into `[0, width - size]` and `y`
to `pointerY - grabOffsetY` clamped into `[0, height - size]`, where the
pointer position is taken relative to the overlay; it keeps `size`, and the
box ends fully inside the container. -/
theorem handleCropMouseMove_drag (o : Overlay) (s : Crop) (e : MouseEvent)
    (hd : s.isDragging = true) (hw : s.cropBox.size ≤ o.width)
    (hh : s.cropBox.size ≤ o.height) :
    (handleCropMouseMove o s e).cropBox.x
        = clampInto 0 (o.width - s.cropBox.size)
            (e.clientX - o.left - s.dragStart.x) ∧
      (handleCropMouseMove o s e).cropBox.y
        = clampInto 0 (o.height - s.cropBox.size)
            (e.clientY - o.top - s.dragStart.y) ∧
      (handleCropMouseMove o s e).cropBox.size = s.cropBox.size ∧
      Inside o.width o.height (handleCropMouseMove o s e).cropBox := by
  have hx : (0 : ℚ) ≤ o.width - s.cropBox.size := by linarith
  have hy : (0 : ℚ) ≤ o.height - s.cropBox.size := by linarith
  have hbox : (handleCropMouseMove o s e).cropBox
      = { x := clampInto 0 (o.width - s.cropBox.size)
                (e.clientX - o.left - s.dragStart.x)
          y := clampInto 0 (o.height - s.cropBox.size)
                (e.clientY - o.top - s.dragStart.y)
          size := s.cropBox.size } := by
    simp only [handleCropMouseMove, hd, Bool.not_true, Bool.false_and,
      Bool.false_eq_true, if_false, if_true, max_min_eq_clampInto _ _ hx,
      max_min_eq_clampInto _ _ hy]
  rw [hbox]
  have cx := clampInto_mem 0 (o.width - s.cropBox.size)
    (e.clientX - o.left - s.dragStart.x) hx
  have cy := clampInto_mem 0 (o.height - s.cropBox.size)
    (e.clientY - o.top - s.dragStart.y) hy
  refine ⟨rfl, rfl, rfl, cx.1, cy.1, ?_, ?_⟩
  · show clampInto _ _ _ + s.cropBox.size ≤ o.width
    linarith [cx.2]
  · show clampInto _ _ _ + s.cropBox.size ≤ o.height
    linarith [cy.2]

/-- C2 at a concrete drag: a 50px box grabbed at offset (10, 10) in a
200 × 200 overlay, pointer moved to (500, 5). -/
theorem handleCropMouseMove_drag_witness :
    (handleCropMouseMove (squareOverlay 200)
        { cropBox := ⟨100, 100, 50⟩, isDragging := true, isResizing := false,
          dragStart := ⟨10, 10⟩, resizeCorner := none }
        { clientX := 500, clientY := 5, onHandle := false }).cropBox
      = ⟨150, 0, 50⟩ ∧
    Inside 200 200
      (handleCropMouseMove (squareOverlay 200)
        { cropBox := ⟨100, 100, 50⟩, isDragging := true, isResizing := false,
          dragStart := ⟨10, 10⟩, resizeCorner := none }
        { clientX := 500, clientY := 5, onHandle := false }).cropBox :=
  ⟨by decide!,
    (handleCropMouseMove_drag (squareOverlay 200)
      { cropBox := ⟨100, 100, 50⟩, isDragging := true, isResizing := false,
        dragStart := ⟨10, 10⟩, resizeCorner := none }
      { clientX := 500, clientY := 5, onHandle := false } rfl
      (by decide!) (by decide!)).2.2.2⟩

/-- The grab offset stored by a pointer-down inside the box (not on a handle)
is the pointer position, relative to the overlay, minus the box position. -/
theorem handleCropMouseDown_grabOffset (o : Overlay) (s : Crop)
    (e : MouseEvent) (h : e.onHandle = false) :
    (handleCropMouseDown o s e).isDragging = true ∧
      (handleCropMouseDown o s e).dragStart
        = ⟨e.clientX - o.left - s.cropBox.x, e.clientY - o.top - s.cropBox.y⟩ ∧
      (handleCropMouseDown o s e).cropBox = s.cropBox := by
  simp [handleCropMouseDown, h]

/-- The step of a key event is 1 or 10, so it is positive. -/
theorem keyStep_pos (e : KeyEvent) : 0 < keyStep e := by
  unfold keyStep; split_ifs <;> norm_num

/-- The key handler in terms of its local `step`: on a valid box each arrow
key gives the move by `keyStep e` clamped into `[0, extent - size]`, any other
key returns the box as it was, and the size and containment are kept. -/
theorem handleCropKeyDown_keyStep_clamped (o : Overlay) (box : CropBox) (e : KeyEvent)
    (hv : Valid o.clientWidth o.clientHeight box) :
    (e.key = "ArrowLeft" → handleCropKeyDown o box e =
        ({ box with x := clampInto 0 (o.clientWidth - box.size)
                          (box.x - keyStep e) }, true)) ∧
    (e.key = "ArrowRight" → handleCropKeyDown o box e =
        ({ box with x := clampInto 0 (o.clientWidth - box.size)
                          (box.x + keyStep e) }, true)) ∧
    (e.key = "ArrowUp" → handleCropKeyDown o box e =
        ({ box with y := clampInto 0 (o.clientHeight - box.size)
                          (box.y - keyStep e) }, true)) ∧
    (e.key = "ArrowDown" → handleCropKeyDown o box e =
        ({ box with y := clampInto 0 (o.clientHeight - box.size)
                          (box.y + keyStep e) }, true)) ∧
    ((e.key ≠ "ArrowLeft" ∧ e.key ≠ "ArrowRight" ∧ e.key ≠ "ArrowUp" ∧
        e.key ≠ "ArrowDown") → handleCropKeyDown o box e = (box, false)) ∧
    (handleCropKeyDown o box e).1.size = box.size ∧
    Inside o.clientWidth o.clientHeight (handleCropKeyDown o box e).1 := by
  obtain ⟨hx, hy, hxw, hyh, -, -⟩ := hv
  have hs := keyStep_pos e
  have eL : max 0 (box.x - keyStep e)
      = clampInto 0 (o.clientWidth - box.size) (box.x - keyStep e) := by
    simp only [clampInto, max_def]; split_ifs <;> linarith
  have eR : min (o.clientWidth - box.size) (box.x + keyStep e)
      = clampInto 0 (o.clientWidth - box.size) (box.x + keyStep e) := by
    simp only [clampInto, min_def]; split_ifs <;> linarith
  have eU : max 0 (box.y - keyStep e)
      = clampInto 0 (o.clientHeight - box.size) (box.y - keyStep e) := by
    simp only [clampInto, max_def]; split_ifs <;> linarith
  have eD : min (o.clientHeight - box.size) (box.y + keyStep e)
      = clampInto 0 (o.clientHeight - box.size) (box.y + keyStep e) := by
    simp only [clampInto, min_def]; split_ifs <;> linarith
  have bw : (0 : ℚ) ≤ o.clientWidth - box.size := by linarith
  have bh : (0 : ℚ) ≤ o.clientHeight - box.size := by linarith
  have hL : e.key = "ArrowLeft" → handleCropKeyDown o box e =
      ({ box with x := clampInto 0 (o.clientWidth - box.size)
                        (box.x - keyStep e) }, true) := by
    intro hk; simp only [handleCropKeyDown, hk, eL]
  have hR : e.key = "ArrowRight" → handleCropKeyDown o box e =
      ({ box with x := clampInto 0 (o.clientWidth - box.size)
                        (box.x + keyStep e) }, true) := by
    intro hk; simp only [handleCropKeyDown, hk, eR]
  have hU : e.key = "ArrowUp" → handleCropKeyDown o box e =
      ({ box with y := clampInto 0 (o.clientHeight - box.size)
                        (box.y - keyStep e) }, true) := by
    intro hk; simp only [handleCropKeyDown, hk, eU]
  have hD : e.key = "ArrowDown" → handleCropKeyDown o box e =
      ({ box with y := clampInto 0 (o.clientHeight - box.size)
                        (box.y + keyStep e) }, true) := by
    intro hk; simp only [handleCropKeyDown, hk, eD]
  have hO : (e.key ≠ "ArrowLeft" ∧ e.key ≠ "ArrowRight" ∧ e.key ≠ "ArrowUp" ∧
      e.key ≠ "ArrowDown") → handleCropKeyDown o box e = (box, false) := by
    rintro ⟨h1, h2, h3, h4⟩
    unfold handleCropKeyDown
    split <;> simp_all
  refine ⟨hL, hR, hU, hD, hO, ?_, ?_⟩
  · by_cases k1 : e.key = "ArrowLeft"
    · rw [hL k1]
    by_cases k2 : e.key = "ArrowRight"
    · rw [hR k2]
    by_cases k3 : e.key = "ArrowUp"
    · rw [hU k3]
    by_cases k4 : e.key = "ArrowDown"
    · rw [hD k4]
    rw [hO ⟨k1, k2, k3, k4⟩]
  · by_cases k1 : e.key = "ArrowLeft"
    · rw [hL k1]
      have c := clampInto_mem 0 (o.clientWidth - box.size) (box.x - keyStep e) bw
      exact ⟨c.1, hy, by show clampInto _ _ _ + box.size ≤ _; linarith [c.2], hyh⟩
    by_cases k2 : e.key = "ArrowRight"
    · rw [hR k2]
      have c := clampInto_mem 0 (o.clientWidth - box.size) (box.x + keyStep e) bw
      exact ⟨c.1, hy, by show clampInto _ _ _ + box.size ≤ _; linarith [c.2], hyh⟩
    by_cases k3 : e.key = "ArrowUp"
    · rw [hU k3]
      have c := clampInto_mem 0 (o.clientHeight - box.size) (box.y - keyStep e) bh
      exact ⟨hx, c.1, hxw, by show clampInto _ _ _ + box.size ≤ _; linarith [c.2]⟩
    by_cases k4 : e.key = "ArrowDown"
    · rw [hD k4]
      have c := clampInto_mem 0 (o.clientHeight - box.size) (box.y + keyStep e) bh
      exact ⟨hx, c.1, hxw, by show clampInto _ _ _ + box.size ≤ _; linarith [c.2]⟩
    rw [hO ⟨k1, k2, k3, k4⟩]
    exact ⟨hx, hy, hxw, hyh⟩

/-- C5: on a valid box, an arrow key moves the box by `step` along the key's
axis, where `step` is 1 without shift and 10 with shift held, clamped into
`[0, extent - size]`; it keeps the other coordinate and the size, leaves the
box inside the container and calls `preventDefault`. Any other key leaves
`x`, `y` and `size` as they were and does not call `preventDefault`. -/
theorem handleCropKeyDown_spec (o : Overlay) (box : CropBox) (e : KeyEvent)
    (step : ℚ) (hv : Valid o.clientWidth o.clientHeight box)
    (hstep : (e.shiftKey = false ∧ step = 1) ∨ (e.shiftKey = true ∧ step = 10)) :
    (e.key = "ArrowLeft" → handleCropKeyDown o box e =
        ({ x := clampInto 0 (o.clientWidth - box.size) (box.x - step),
           y := box.y, size := box.size }, true)) ∧
    (e.key = "ArrowRight" → handleCropKeyDown o box e =
        ({ x := clampInto 0 (o.clientWidth - box.size) (box.x + step),
           y := box.y, size := box.size }, true)) ∧
    (e.key = "ArrowUp" → handleCropKeyDown o box e =
        ({ x := box.x,
           y := clampInto 0 (o.clientHeight - box.size) (box.y - step),
           size := box.size }, true)) ∧
    (e.key = "ArrowDown" → handleCropKeyDown o box e =
        ({ x := box.x,
           y := clampInto 0 (o.clientHeight - box.size) (box.y + step),
           size := box.size }, true)) ∧
    ((e.key ≠ "ArrowLeft" ∧ e.key ≠ "ArrowRight" ∧ e.key ≠ "ArrowUp" ∧
        e.key ≠ "ArrowDown") → handleCropKeyDown o box e = (box, false)) ∧
    (handleCropKeyDown o box e).1.size = box.size ∧
    Inside o.clientWidth o.clientHeight (handleCropKeyDown o box e).1 := by
  have hk : keyStep e = step := by
    unfold keyStep
    rcases hstep with ⟨hs, rfl⟩ | ⟨hs, rfl⟩ <;> simp [hs]
  have h := handleCropKeyDown_keyStep_clamped o box e hv
  rw [hk] at h
  exact h

/-- C5 at concrete keys, in a 200 × 200 container on the box (100, 100, 50):
`ArrowRight` with shift held moves it by 10 to `x = 110`, `ArrowLeft` without
shift moves it by 1 to `x = 99`, `ArrowDown` with shift at `y = 145` is
clamped to `y = 150`, and the key `"a"` leaves the box alone without
`preventDefault`. -/
theorem handleCropKeyDown_spec_witness :
    handleCropKeyDown (squareOverlay 200) ⟨100, 100, 50⟩ ⟨"ArrowRight", true⟩
        = (⟨clampInto 0 (200 - 50) (100 + 10), 100, 50⟩, true) ∧
      clampInto 0 (200 - 50) (100 + 10) = 110 ∧
      handleCropKeyDown (squareOverlay 200) ⟨100, 100, 50⟩ ⟨"ArrowLeft", false⟩
        = (⟨clampInto 0 (200 - 50) (100 - 1), 100, 50⟩, true) ∧
      clampInto 0 (200 - 50) (100 - 1) = 99 ∧
      handleCropKeyDown (squareOverlay 200) ⟨100, 145, 50⟩ ⟨"ArrowDown", true⟩
        = (⟨100, clampInto 0 (200 - 50) (145 + 10), 50⟩, true) ∧
      clampInto 0 (200 - 50) (145 + 10) = 150 ∧
      handleCropKeyDown (squareOverlay 200) ⟨100, 100, 50⟩ ⟨"a", false⟩
        = (⟨100, 100, 50⟩, false) ∧
      Inside 200 200
        (handleCropKeyDown (squareOverlay 200) ⟨100, 145, 50⟩
          ⟨"ArrowDown", true⟩).1 :=
  ⟨(handleCropKeyDown_spec (squareOverlay 200) ⟨100, 100, 50⟩
      ⟨"ArrowRight", true⟩ 10 (by decide!) (Or.inr ⟨rfl, rfl⟩)).2.1 rfl,
    by decide!,
    (handleCropKeyDown_spec (squareOverlay 200) ⟨100, 100, 50⟩
      ⟨"ArrowLeft", false⟩ 1 (by decide!) (Or.inl ⟨rfl, rfl⟩)).1 rfl,
    by decide!,
    (handleCropKeyDown_spec (squareOverlay 200) ⟨100, 145, 50⟩
      ⟨"ArrowDown", true⟩ 10 (by decide!) (Or.inr ⟨rfl, rfl⟩)).2.2.2.1 rfl,
    by decide!,
    (handleCropKeyDown_spec (squareOverlay 200) ⟨100, 100, 50⟩ ⟨"a", false⟩ 1
      (by decide!) (Or.inl ⟨rfl, rfl⟩)).2.2.2.2.1 (by decide),
    (handleCropKeyDown_spec (squareOverlay 200) ⟨100, 145, 50⟩
      ⟨"ArrowDown", true⟩ 10 (by decide!) (Or.inr ⟨rfl, rfl⟩)).2.2.2.2.2.2⟩

end Move

/-! ## Coordinate mapping -/

section Mapping

/-- The two contain-fit blocks compute the same rect: the literal `0` offset
of `calculateCropParameters` is what `initializeCropBox` computes as half of
an empty free space. -/
theorem cropDisplayRect_eq_initDisplayRect (v : Video) :
    cropDisplayRect v = initDisplayRect v := by
  simp only [cropDisplayRect, initDisplayRect]
  split_ifs <;> simp

/-- The contain-fit property of the rect of `calculateCropParameters`. -/
theorem cropDisplayRect_containFit (v : Video) (hw : 0 < v.rectWidth)
    (hh : 0 < v.rectHeight) (hvw : 0 < v.videoWidth)
    (hvh : 0 < v.videoHeight) : ContainFit v (cropDisplayRect v) := by
  have ha : 0 < v.videoWidth / v.videoHeight := div_pos hvw hvh
  simp only [cropDisplayRect, ContainFit]
  split_ifs with h
  · have hlt : v.rectWidth / (v.videoWidth / v.videoHeight) < v.rectHeight := by
      rw [div_lt_iff₀ ha]
      have := (div_lt_iff₀ hh).mp h
      linarith
    have hpos : 0 < v.rectWidth / (v.videoWidth / v.videoHeight) :=
      div_pos hw ha
    refine ⟨le_refl _, by linarith, by simp, by linarith, Or.inl rfl, ?_⟩
    field_simp
    ring
  · have hle : v.rectHeight * (v.videoWidth / v.videoHeight) ≤ v.rectWidth := by
      have h1 : v.videoWidth / v.videoHeight ≤ v.rectWidth / v.rectHeight :=
        not_lt.mp h
      have := (le_div_iff₀ hh).mp h1
      linarith
    have hpos : 0 < v.rectHeight * (v.videoWidth / v.videoHeight) :=
      mul_pos hh ha
    refine ⟨by linarith, le_refl _, by linarith, by simp, Or.inr rfl, ?_⟩
    field_simp
    ring

/-- C6: for a container and a video of positive sizes, the display rect of
both contain-fit blocks (`initializeCropBox` and `calculateCropParameters`)
lies inside the container, has `displayWidth = containerWidth` or
`displayHeight = containerHeight`, and has
`displayWidth / displayHeight = videoWidth / videoHeight`. -/
theorem displayRect_containFit (v : Video) (hw : 0 < v.rectWidth)
    (hh : 0 < v.rectHeight) (hvw : 0 < v.videoWidth)
    (hvh : 0 < v.videoHeight) :
    ContainFit v (initDisplayRect v) ∧ ContainFit v (cropDisplayRect v) := by
  have h := cropDisplayRect_containFit v hw hh hvw hvh
  exact ⟨cropDisplayRect_eq_initDisplayRect v ▸ h, h⟩

/-- C6 at a pillarboxed video: a 1080 × 1920 video in an 800 × 450 container
is displayed 253.125 wide and 450 high, 273.4375 from the left. -/
theorem displayRect_containFit_witness :
    initDisplayRect ⟨1080, 1920, 800, 450⟩ = ⟨2025 / 8, 450, 4375 / 16, 0⟩ ∧
      ContainFit ⟨1080, 1920, 800, 450⟩ (initDisplayRect ⟨1080, 1920, 800, 450⟩) ∧
      ContainFit ⟨1080, 1920, 800, 450⟩ (cropDisplayRect ⟨1080, 1920, 800, 450⟩) :=
  ⟨by decide!,
    displayRect_containFit ⟨1080, 1920, 800, 450⟩ (by decide!) (by decide!)
      (by decide!) (by decide!)⟩

/-- C7: with an 800 × 450 container and a 1920 × 1080 video the contain-fit
rect is the whole container with zero offsets, both scale factors are 2.4,
and the display-space box (300, 168.75, 180) maps to the source-space crop (720, 405, 432). -/
theorem calculateCropParameters_example :
    cropDisplayRect ⟨1920, 1080, 800, 450⟩ = ⟨800, 450, 0, 0⟩ ∧
      scaleX ⟨1920, 1080, 800, 450⟩ = 12 / 5 ∧
      scaleY ⟨1920, 1080, 800, 450⟩ = 12 / 5 ∧
      calculateCropParameters ⟨1920, 1080, 800, 450⟩ ⟨300, 675 / 4, 180⟩
        = ⟨720, 405, 432⟩ := by
  decide!

end Mapping

/-! ## Worker lifecycle -/

section Lifecycle

/-- C8 (code evaluated at the failing input): `generateGif` constructs a new
worker without terminating the one held in `this.worker`. Two submissions in a
row leave workers 0 and 1 both non-terminated; the same holds when the first
job has completed in between (the generate button is shown again, the worker
of the finished job is still held and was never terminated). -/
theorem generateGif_keeps_previous_worker :
    (run loadedSession [.generateClick]).worker = some 0 ∧
      (run loadedSession [.generateClick, .generateClick]).live = [1, 0] ∧
      (run loadedSession [.generateClick, .workerComplete]).generateBtnShown
        = true ∧
      (run loadedSession [.generateClick, .workerComplete, .generateClick]).live
        = [1, 0] ∧
      ¬ (run loadedSession [.generateClick, .generateClick]).live.length ≤ 1 := by
  decide

/-- The sibling paths do terminate the held worker: after `cancelGeneration`
or `reset` the worker held before is no longer live (worker ids are distinct,
so `live` has no duplicates) and `this.worker` is `null`. -/
theorem cancel_reset_terminate (s : Session) (w : Nat)
    (hw : s.worker = some w) (hnd : s.live.Nodup) :
    w ∉ (cancelGeneration s).live ∧ (cancelGeneration s).worker = none ∧
      w ∉ (reset s).live ∧ (reset s).worker = none := by
  simp only [cancelGeneration, reset, hw]
  exact ⟨hnd.not_mem_erase, trivial, hnd.not_mem_erase, trivial⟩

end Lifecycle

end GifTool

namespace FFmpegWorker

/-! ## Worker protocol -/

section Protocol

/-- Every message posted by the event handlers is a progress message. -/
theorem onSignals_isProgress (sigs : List Signal) :
    ∀ m ∈ onSignals sigs, m.isProgress = true := by
  intro m hm
  simp only [onSignals, List.mem_flatMap] at hm
  obtain ⟨sig, -, hsig⟩ := hm
  cases sig with
  | log message =>
    simp only [onSignal, parseLogForProgress] at hsig
    split at hsig
    · simp only [List.mem_singleton] at hsig
      subst hsig; rfl
    · simp at hsig
  | progress p =>
    simp only [onSignal, onProgress, List.mem_singleton] at hsig
    subst hsig; rfl

/-- A well-formed sequence stays well formed when progress messages are put
in front of it. -/
theorem wellFormed_prepend {pre t : List Message}
    (hpre : ∀ m ∈ pre, m.isProgress = true) (ht : WellFormed t) :
    WellFormed (pre ++ t) := by
  obtain ⟨p, last, rfl, hp, hl⟩ := ht
  refine ⟨pre ++ p, last, (List.append_assoc _ _ _).symm, ?_, hl⟩
  intro m hm
  rcases List.mem_append.mp hm with h | h
  · exact hpre m h
  · exact hp m h

/-- A single terminal message is a well-formed sequence. -/
theorem wellFormed_single {m : Message} (h : m.isTerminal = true) :
    WellFormed [m] :=
  ⟨[], m, rfl, by simp, h⟩

/-- An awaited call in front of a well-formed rest is well formed, whether it
throws or returns. -/
theorem wellFormed_await (c : Call) {rest : List Message}
    (h : WellFormed rest) : WellFormed (await c rest) := by
  unfold FFmpegWorker.await
  apply wellFormed_prepend (onSignals_isProgress _)
  cases c.error with
  | some e => exact wellFormed_single rfl
  | none => exact h

/-- A progress message in front of a well-formed rest is well formed. -/
theorem wellFormed_cons_progress (p : ℚ) (s : String) {rest : List Message}
    (h : WellFormed rest) : WellFormed (.progress p s :: rest) :=
  wellFormed_prepend (show ∀ m ∈ [Message.progress p s], m.isProgress = true by
    simp [Message.isProgress]) h

/-- A well-formed sequence has exactly one terminal message. -/
theorem wellFormed_terminals_eq_one {t : List Message} (h : WellFormed t) :
    terminals t = 1 := by
  obtain ⟨pre, last, rfl, hp, hl⟩ := h
  have h0 : List.countP Message.isTerminal pre = 0 := by
    rw [List.countP_eq_zero]
    intro m hm
    have := hp m hm
    cases m <;> simp_all [Message.isProgress, Message.isTerminal]
  simp [terminals, List.countP_append, h0, hl]

/-- C9 (code evaluated at the failing input): when `load()` throws,
`initialize` posts an `error` message and rethrows, and the `catch` block of
`generateGif` posts a second `error` message: the sequence for one request
holds two terminal messages, and the message before the last one is not a
progress message. -/
theorem generateGif_load_failure_two_errors :
    generateGif false (failingLoad "boom")
        = [.progress 10 "Loading FFmpeg...",
            .progress 15 "Loading FFmpeg core...",
            .error "Failed to load FFmpeg: boom", .error "boom"] ∧
      terminals (generateGif false (failingLoad "boom")) = 2 := by
  decide

/-- Apart from a failing `load()`, the protocol holds: if the engine is
already loaded or `load()` returns, then whatever the other calls do, the
sequence posted for one request is progress messages followed by exactly one
terminal message. -/
theorem generateGif_wellFormed_of_loaded (isLoaded : Bool) (eng : Engine)
    (h : isLoaded = true ∨ eng.load.error = none) :
    WellFormed (generateGif isLoaded eng) ∧
      terminals (generateGif isLoaded eng) = 1 := by
  have tail : WellFormed
      (.progress 25 "Preparing video data..." ::
        FFmpegWorker.await eng.fetchFile
          (FFmpegWorker.await eng.writeFile
            (.progress 30 "Starting GIF generation..." ::
              FFmpegWorker.await eng.exec
                (.progress 95 "Finalizing GIF..." ::
                  FFmpegWorker.await eng.readFile
                    (FFmpegWorker.await eng.deleteInput
                      (FFmpegWorker.await eng.deleteOutput
                        [.progress 100 "Complete!",
                          .complete eng.gifData])))))) := by
    refine wellFormed_cons_progress _ _ (wellFormed_await _ (wellFormed_await _
      (wellFormed_cons_progress _ _ (wellFormed_await _
        (wellFormed_cons_progress _ _ (wellFormed_await _ (wellFormed_await _
          (wellFormed_await _ ?_))))))))
    exact wellFormed_cons_progress _ _ (wellFormed_single rfl)
  have wf : WellFormed (generateGif isLoaded eng) := by
    unfold generateGif initializeFFmpeg
    cases isLoaded with
    | true => simpa using tail
    | false =>
      have hl : eng.load.error = none := by
        rcases h with h | h
        · exact absurd h (by decide)
        · exact h
      simp only [hl, Bool.false_eq_true, if_false]
      apply wellFormed_prepend _ tail
      intro m hm
      simp only [List.mem_append, List.mem_cons, List.mem_singleton,
        List.not_mem_nil, or_false] at hm
      rcases hm with ((rfl | rfl) | hm) | rfl
      · rfl
      · rfl
      · exact onSignals_isProgress _ m hm
      · rfl
  exact ⟨wf, wellFormed_terminals_eq_one wf⟩

/-- Progress messages in front keep the `complete` message where it is. -/
theorem completeAfter100_prepend {pre t : List Message}
    (hpre : ∀ m ∈ pre, m.isProgress = true) (ht : CompleteAfter100 t) :
    CompleteAfter100 (pre ++ t) := by
  intro blob hb
  rcases List.mem_append.mp hb with h | h
  · exact absurd (hpre _ h) (by simp [Message.isProgress])
  · obtain ⟨p, rfl, hp⟩ := ht blob h
    refine ⟨pre ++ p, (List.append_assoc _ _ _).symm, ?_⟩
    intro m hm
    rcases List.mem_append.mp hm with h1 | h1
    · exact hpre m h1
    · exact hp m h1

/-- A lone `error` message holds no `complete` message. -/
theorem completeAfter100_error (e : String) :
    CompleteAfter100 [.error e] := by
  intro blob hb
  simp at hb

/-- The last two messages of the `try` block. -/
theorem completeAfter100_done (data : List Nat) :
    CompleteAfter100 [.progress 100 "Complete!", .complete data] := by
  intro blob hb
  simp only [List.mem_cons, List.mem_singleton, List.not_mem_nil, or_false,
    Message.complete.injEq] at hb
  rcases hb with hb | hb
  · cases hb
  · subst hb
    exact ⟨[], rfl, by simp⟩

/-- An awaited call keeps the property of the rest of the `try` block. -/
theorem completeAfter100_await (c : Call) {rest : List Message}
    (h : CompleteAfter100 rest) : CompleteAfter100 (await c rest) := by
  unfold FFmpegWorker.await
  apply completeAfter100_prepend (onSignals_isProgress _)
  cases c.error with
  | some e => exact completeAfter100_error e
  | none => exact h

/-- A progress message in front keeps the property. -/
theorem completeAfter100_cons_progress (p : ℚ) (s : String)
    {rest : List Message} (h : CompleteAfter100 rest) :
    CompleteAfter100 (.progress p s :: rest) :=
  completeAfter100_prepend
    (show ∀ m ∈ [Message.progress p s], m.isProgress = true by
      simp [Message.isProgress]) h

/-- The messages posted by `initialize` before it returns or rethrows hold no
`complete` message. -/
theorem initializeFFmpeg_no_complete (isLoaded : Bool) (eng : Engine)
    (blob : List Nat) :
    Message.complete blob ∉ (initializeFFmpeg isLoaded eng).posted := by
  unfold initializeFFmpeg
  cases isLoaded with
  | true => simp
  | false =>
    have hs : Message.complete blob ∉ onSignals eng.load.signals := fun h =>
      absurd (onSignals_isProgress _ _ h) (by simp [Message.isProgress])
    cases hl : eng.load.error <;> simp [hs]

/-- When `initialize` returns without throwing, it has posted progress
messages only. -/
theorem initializeFFmpeg_posted_progress (isLoaded : Bool) (eng : Engine)
    (h : (initializeFFmpeg isLoaded eng).thrown = none) :
    ∀ m ∈ (initializeFFmpeg isLoaded eng).posted, m.isProgress = true := by
  unfold initializeFFmpeg at h ⊢
  cases isLoaded with
  | true => simp
  | false =>
    cases hl : eng.load.error with
    | some e => simp [hl] at h
    | none =>
      intro m hm
      simp only [hl, Bool.false_eq_true, if_false, List.mem_append,
        List.mem_cons, List.mem_singleton, List.not_mem_nil, or_false] at hm
      rcases hm with ((rfl | rfl) | hm) | rfl
      · rfl
      · rfl
      · exact onSignals_isProgress _ m hm
      · rfl

/-- The whole sequence of one request has the property, whatever the engine
does. -/
theorem generateGif_completeAfter100 (isLoaded : Bool) (eng : Engine) :
    CompleteAfter100 (generateGif isLoaded eng) := by
  intro blob hb
  unfold generateGif at hb ⊢
  simp only at hb ⊢
  have hinit := initializeFFmpeg_no_complete isLoaded eng blob
  rcases List.mem_append.mp hb with h | h
  · exact absurd h hinit
  · cases ht : (initializeFFmpeg isLoaded eng).thrown with
    | some e => rw [ht] at h; simp at h
    | none =>
      rw [ht] at h
      have tail := completeAfter100_cons_progress 25 "Preparing video data..."
        (completeAfter100_await eng.fetchFile (completeAfter100_await eng.writeFile
          (completeAfter100_cons_progress 30 "Starting GIF generation..."
            (completeAfter100_await eng.exec
              (completeAfter100_cons_progress 95 "Finalizing GIF..."
                (completeAfter100_await eng.readFile
                  (completeAfter100_await eng.deleteInput
                    (completeAfter100_await eng.deleteOutput
                      (completeAfter100_done eng.gifData)))))))))
      obtain ⟨p, hp, hprog⟩ := tail blob h
      refine ⟨(initializeFFmpeg isLoaded eng).posted ++ p, ?_, ?_⟩
      · simp only [hp, List.append_assoc]
      · intro m hm
        rcases List.mem_append.mp hm with h1 | h1
        · exact initializeFFmpeg_posted_progress isLoaded eng ht m h1
        · exact hprog m h1

/-- C10: in every run of the worker's `generateGif` that posts a `complete`
message, whatever the engine emitted before, the message posted immediately
before `complete` is the progress message with value 100, `complete` is last
and only progress messages precede; so the caller's `onmessage` handler calls
`updateProgress(100, ...)` last before `handleGenerationComplete`. -/
theorem generateGif_complete_preceded_by_100 (isLoaded : Bool) (eng : Engine)
    (blob : List Nat)
    (h : Message.complete blob ∈ generateGif isLoaded eng) :
    ∃ pre, generateGif isLoaded eng
          = pre ++ [.progress 100 "Complete!", .complete blob] ∧
      (∀ m ∈ pre, m.isProgress = true) ∧
      (generateGif isLoaded eng).map GifTool.onmessage
          = pre.map GifTool.onmessage ++
            [.updateProgress 100 "Complete!", .handleGenerationComplete blob] := by
  obtain ⟨pre, hpre, hprog⟩ := generateGif_completeAfter100 isLoaded eng blob h
  refine ⟨pre, hpre, hprog, ?_⟩
  rw [hpre]
  simp [GifTool.onmessage]

/-- C10 on a run where the engine reports half-way progress and a frame log
line during `exec`: the sequence ends with progress 100 and `complete`. -/
theorem generateGif_complete_preceded_by_100_witness :
    Message.complete [71, 73, 70] ∈
        generateGif false
          (okEngine [.progress (1 / 2), .log "frame=   20 fps=0.0"] [71, 73, 70]) ∧
      ∃ pre, generateGif false
          (okEngine [.progress (1 / 2), .log "frame=   20 fps=0.0"] [71, 73, 70])
            = pre ++ [.progress 100 "Complete!", .complete [71, 73, 70]] ∧
        (∀ m ∈ pre, m.isProgress = true) ∧
        (generateGif false
          (okEngine [.progress (1 / 2), .log "frame=   20 fps=0.0"]
            [71, 73, 70])).map GifTool.onmessage
          = pre.map GifTool.onmessage ++
            [.updateProgress 100 "Complete!",
              .handleGenerationComplete [71, 73, 70]] :=
  ⟨by decide!,
    generateGif_complete_preceded_by_100 false
      (okEngine [.progress (1 / 2), .log "frame=   20 fps=0.0"] [71, 73, 70])
      [71, 73, 70] (by decide!)⟩

/-- The run of the witness above, message by message. -/
theorem generateGif_example_run :
    generateGif false
        (okEngine [.progress (1 / 2), .log "frame=   20 fps=0.0"] [71, 73, 70])
      = [.progress 10 "Loading FFmpeg...",
          .progress 15 "Loading FFmpeg core...",
          .progress 25 "FFmpeg ready",
          .progress 25 "Preparing video data...",
          .progress 30 "Starting GIF generation...",
          .progress 60 "Processing... 50%",
          .progress 60 "Processing frame 20...",
          .progress 95 "Finalizing GIF...",
          .progress 100 "Complete!",
          .complete [71, 73, 70]] := by
  decide!

end Protocol

end FFmpegWorker

/-! ## Rounding -/

section Rounding

/-- The function `Math.round` rounds up by at most one half. -/
theorem jsRound_le (q : ℚ) : (jsRound q : ℚ) ≤ q + 1 / 2 :=
  Int.floor_le (q + 1 / 2)

/-- The function `Math.round` rounds down by at most one half. -/
theorem jsRound_ge (q : ℚ) : q - 1 / 2 < (jsRound q : ℚ) := by
  have h := Int.lt_floor_add_one (q + 1 / 2)
  unfold jsRound
  linarith

/-- The function `Math.round` of a non-negative number is non-negative. -/
theorem jsRound_nonneg {q : ℚ} (h : 0 ≤ q) : 0 ≤ jsRound q :=
  Int.floor_nonneg.2 (by linarith)

end Rounding

namespace GifTool

/-! ## Source crop bounds -/

section SourceBounds

/-- For positive sizes the two scale factors of `calculateCropParameters()`
are the same positive number, which maps the display rect onto the native
frame. -/
theorem scale_spec (v : Video) (hw : 0 < v.rectWidth) (hh : 0 < v.rectHeight)
    (hvw : 0 < v.videoWidth) (hvh : 0 < v.videoHeight) :
    scaleX v = scaleY v ∧ 0 < scaleX v ∧
      (cropDisplayRect v).displayWidth * scaleX v = v.videoWidth ∧
      (cropDisplayRect v).displayHeight * scaleY v = v.videoHeight := by
  have ha : 0 < v.videoWidth / v.videoHeight := div_pos hvw hvh
  simp only [scaleX, scaleY, cropDisplayRect]
  split_ifs with h
  · refine ⟨?_, div_pos hvw hw, ?_, ?_⟩
    · field_simp; try ring
    · field_simp; try ring
    · field_simp; try ring
  · have hpos : 0 < v.rectHeight * (v.videoWidth / v.videoHeight) :=
      mul_pos hh ha
    refine ⟨?_, div_pos hvw hpos, ?_, ?_⟩
    · field_simp; try ring
    · field_simp; try ring
    · field_simp; try ring

/-- C11 (counterexample): with a 400 × 400 container and a 400 × 400 video
(scale factor 1, zero offsets) the valid box (0.5, 0.5, 399.5) lies inside the
displayed media rect (`x + size = y + size = 400`), and its source crop is
(1, 1, 400): offset and size are each rounded up, so `x + size = 401` and
`y + size = 401` exceed the native width and height 400. -/
theorem calculateCropParameters_exceeds_native :
    Valid 400 400 ⟨1 / 2, 1 / 2, 799 / 2⟩ ∧
      InsideDisplay ⟨400, 400, 400, 400⟩ ⟨1 / 2, 1 / 2, 799 / 2⟩ ∧
      calculateCropParameters ⟨400, 400, 400, 400⟩ ⟨1 / 2, 1 / 2, 799 / 2⟩
        = ⟨1, 1, 400⟩ ∧
      ¬ (((calculateCropParameters ⟨400, 400, 400, 400⟩
              ⟨1 / 2, 1 / 2, 799 / 2⟩).x
            + (calculateCropParameters ⟨400, 400, 400, 400⟩
              ⟨1 / 2, 1 / 2, 799 / 2⟩).size : ℤ) : ℚ) ≤ 400 ∧
      ¬ (((calculateCropParameters ⟨400, 400, 400, 400⟩
              ⟨1 / 2, 1 / 2, 799 / 2⟩).y
            + (calculateCropParameters ⟨400, 400, 400, 400⟩
              ⟨1 / 2, 1 / 2, 799 / 2⟩).size : ℤ) : ℚ) ≤ 400 := by
  decide!

/-- C11 (amended): for a container and a video of positive sizes and every
region inside the displayed media rect, the source crop has non-negative
integer `x` and `y`, each the rounded scaled offset of the region, and it
exceeds the native bounds by at most one pixel: `x + size ≤ videoWidth + 1`
and `y + size ≤ videoHeight + 1`. -/
theorem calculateCropParameters_bounds (v : Video) (box : CropBox)
    (hw : 0 < v.rectWidth) (hh : 0 < v.rectHeight) (hvw : 0 < v.videoWidth)
    (hvh : 0 < v.videoHeight) (hin : InsideDisplay v box) :
    0 ≤ (calculateCropParameters v box).x ∧
      0 ≤ (calculateCropParameters v box).y ∧
      (calculateCropParameters v box).x
        = jsRound ((box.x - (cropDisplayRect v).offsetX) * scaleX v) ∧
      (calculateCropParameters v box).y
        = jsRound ((box.y - (cropDisplayRect v).offsetY) * scaleY v) ∧
      (((calculateCropParameters v box).x
          + (calculateCropParameters v box).size : ℤ) : ℚ)
        ≤ v.videoWidth + 1 ∧
      (((calculateCropParameters v box).y
          + (calculateCropParameters v box).size : ℤ) : ℚ)
        ≤ v.videoHeight + 1 := by
  obtain ⟨hx, hy, hxw, hyh⟩ := hin
  obtain ⟨hs, hpos, hsw, hsh⟩ := scale_spec v hw hh hvw hvh
  have hposY : 0 < scaleY v := hs ▸ hpos
  have hmin : min (scaleX v) (scaleY v) = scaleX v := by rw [hs, min_self]
  have cx0 : 0 ≤ (box.x - (cropDisplayRect v).offsetX) * scaleX v :=
    mul_nonneg (by linarith) hpos.le
  have cy0 : 0 ≤ (box.y - (cropDisplayRect v).offsetY) * scaleY v :=
    mul_nonneg (by linarith) hposY.le
  have ex : (calculateCropParameters v box).x
      = jsRound ((box.x - (cropDisplayRect v).offsetX) * scaleX v) := by
    simp only [calculateCropParameters]
    exact max_eq_right (jsRound_nonneg cx0)
  have ey : (calculateCropParameters v box).y
      = jsRound ((box.y - (cropDisplayRect v).offsetY) * scaleY v) := by
    simp only [calculateCropParameters]
    exact max_eq_right (jsRound_nonneg cy0)
  have es : (calculateCropParameters v box).size
      = jsRound (box.size * scaleX v) := by
    simp only [calculateCropParameters, hmin]
  have sumX : (box.x - (cropDisplayRect v).offsetX) * scaleX v
      + box.size * scaleX v ≤ v.videoWidth := by
    have h1 : (box.x + box.size - (cropDisplayRect v).offsetX) * scaleX v
        ≤ (cropDisplayRect v).displayWidth * scaleX v :=
      mul_le_mul_of_nonneg_right (by linarith) hpos.le
    rw [hsw] at h1
    linarith
  have sumY : (box.y - (cropDisplayRect v).offsetY) * scaleY v
      + box.size * scaleX v ≤ v.videoHeight := by
    have h1 : (box.y + box.size - (cropDisplayRect v).offsetY) * scaleY v
        ≤ (cropDisplayRect v).displayHeight * scaleY v :=
      mul_le_mul_of_nonneg_right (by linarith) hposY.le
    rw [hsh] at h1
    rw [hs]
    linarith
  have rx := jsRound_le ((box.x - (cropDisplayRect v).offsetX) * scaleX v)
  have ry := jsRound_le ((box.y - (cropDisplayRect v).offsetY) * scaleY v)
  have rs := jsRound_le (box.size * scaleX v)
  refine ⟨ex ▸ jsRound_nonneg cx0, ey ▸ jsRound_nonneg cy0, ex, ey, ?_, ?_⟩
  · rw [ex, es, Int.cast_add]
    linarith
  · rw [ey, es, Int.cast_add]
    linarith

/-- The amended C11 on a letterboxed video: a 1920 × 1080 video in an
800 × 600 container is displayed 800 × 450 at offset (0, 75); the box
(100, 75.625, 449.375), which touches the bottom of the displayed rect, has
the source crop (240, 2, 1079), one pixel over the native height. -/
theorem calculateCropParameters_bounds_witness :
    InsideDisplay ⟨1920, 1080, 800, 600⟩ ⟨100, 605 / 8, 3595 / 8⟩ ∧
      calculateCropParameters ⟨1920, 1080, 800, 600⟩ ⟨100, 605 / 8, 3595 / 8⟩
        = ⟨240, 2, 1079⟩ ∧
      (((calculateCropParameters ⟨1920, 1080, 800, 600⟩
            ⟨100, 605 / 8, 3595 / 8⟩).y
          + (calculateCropParameters ⟨1920, 1080, 800, 600⟩
            ⟨100, 605 / 8, 3595 / 8⟩).size : ℤ) : ℚ) ≤ 1080 + 1 :=
  ⟨by decide!, by decide!,
    (calculateCropParameters_bounds ⟨1920, 1080, 800, 600⟩
      ⟨100, 605 / 8, 3595 / 8⟩ (by decide!) (by decide!) (by decide!)
      (by decide!) (by decide!)).2.2.2.2.2⟩

end SourceBounds

end GifTool

namespace FFmpegWorker

/-! ## Progress window -/

section Progress

/-- C12 (counterexample): for the raw fraction `p = 0.005` the handler rounds
`p * 100 = 0.5` up to the whole percentage 1 and posts `30 + 1 * 0.6 = 30.6`,
not `30 + p * 60 = 30.3`. -/
theorem onProgress_not_linear :
    onSignal (.progress (1 / 200)) = [.progress (153 / 5) "Processing... 1%"] ∧
      (0 : ℚ) ≤ 1 / 200 ∧ (1 / 200 : ℚ) ≤ 1 ∧
      ∀ message, onSignal (.progress (1 / 200))
        ≠ [.progress (30 + 1 / 200 * 60) message] := by
  have h : onSignal (.progress (1 / 200))
      = [.progress (153 / 5) "Processing... 1%"] := by decide!
  refine ⟨h, by norm_num, by norm_num, ?_⟩
  intro message hm
  rw [h] at hm
  simp only [List.cons.injEq, Message.progress.injEq, and_true] at hm
  norm_num at hm

/-- C12 (amended): for every raw fraction `p` with `0 ≤ p ≤ 1` reported by the
engine's `progress` event, the worker posts one progress message whose value
is `30 + round(p * 100) * 0.6`, the fraction being rounded to a whole
percentage first; that value is within 0.3 of `30 + p * 60` and lies in the
window `[30, 90]`. -/
theorem onProgress_window (p : ℚ) (h0 : 0 ≤ p) (h1 : p ≤ 1) :
    ∃ value message, onSignal (.progress p) = [.progress value message] ∧
      value = 30 + (jsRound (p * 100) : ℚ) * (3 / 5) ∧
      |value - (30 + p * 60)| ≤ 3 / 10 ∧ 30 ≤ value ∧ value ≤ 90 := by
  have hle := jsRound_le (p * 100)
  have hge := jsRound_ge (p * 100)
  have hnn : (0 : ℚ) ≤ (jsRound (p * 100) : ℚ) := by
    exact_mod_cast jsRound_nonneg (by linarith : (0 : ℚ) ≤ p * 100)
  have hlt : (jsRound (p * 100) : ℚ) < 101 := by linarith
  have hz : jsRound (p * 100) < 101 := by exact_mod_cast hlt
  have h100 : (jsRound (p * 100) : ℚ) ≤ 100 := by
    have : jsRound (p * 100) ≤ 100 := by omega
    exact_mod_cast this
  refine ⟨30 + (jsRound (p * 100) : ℚ) * (3 / 5),
    "Processing... " ++ toString (jsRound (p * 100)) ++ "%", rfl, rfl, ?_, ?_, ?_⟩
  · rw [abs_le]
    constructor <;> linarith
  · linarith
  · linarith

/-- The amended C12 at `p = 0.005`: the posted value 30.6 is within 0.3 of
30.3 and inside the window. -/
theorem onProgress_window_witness :
    (0 : ℚ) ≤ 1 / 200 ∧ (1 / 200 : ℚ) ≤ 1 ∧
      ∃ value message,
        onSignal (.progress (1 / 200)) = [.progress value message] ∧
        value = 30 + (jsRound (1 / 200 * 100) : ℚ) * (3 / 5) ∧
        |value - (30 + 1 / 200 * 60)| ≤ 3 / 10 ∧ 30 ≤ value ∧ value ≤ 90 :=
  ⟨by norm_num, by norm_num, onProgress_window (1 / 200) (by norm_num) (by norm_num)⟩

/-- On whole percentages the handler is the linear map of the window: if
`p * 100` is an integer, the posted value is exactly `30 + p * 60`. -/
theorem onProgress_linear_of_whole_percent (p : ℚ) (n : ℤ)
    (h : p * 100 = n) :
    onSignal (.progress p)
      = [.progress (30 + p * 60) ("Processing... " ++ toString n ++ "%")] := by
  have hr : jsRound (p * 100) = n := by
    rw [h]
    unfold jsRound
    rw [Int.floor_eq_iff]
    constructor <;> linarith
  have hp : p * 60 = (n : ℚ) * (3 / 5) := by rw [← h]; ring
  simp only [onSignal, onProgress, hr, hp]

end Progress

end FFmpegWorker
